import Mathlib

/-!
Verification of the rooftop-modelling transform core: a shallow embedding of
the marker store (`src/unnamed/part_000`, `src/unnamed/part_001`), the resize,
rotation and ground-plane-projection behaviours
(`src/behaviours/ResizeBehaviour.ts`, `src/behaviours/RotationBehaviour.ts`)
and the derived-geometry consumer (`src/canvases/ModelCanvas.tsx`).

Machine floating-point numbers are modelled by exact rationals (`ℚ`); the
geometry in the source is algebraic (dot products, clamps, affine updates), so
the rational model is the exact-real semantics of the same expressions.
-/

namespace Rooftop

/-- Babylon.js `Vector3`, restricted to the operations the studied code uses,
over exact rationals. -/
structure Vec3 where
  x : ℚ
  y : ℚ
  z : ℚ
deriving DecidableEq, Repr

namespace Vec3

def add (a b : Vec3) : Vec3 := ⟨a.x + b.x, a.y + b.y, a.z + b.z⟩

def sub (a b : Vec3) : Vec3 := ⟨a.x - b.x, a.y - b.y, a.z - b.z⟩

/-- Babylon `Vector3.scale`. -/
def scale (a : Vec3) (s : ℚ) : Vec3 := ⟨a.x * s, a.y * s, a.z * s⟩

/-- Babylon `Vector3.Dot`. -/
def dot (a b : Vec3) : ℚ := a.x * b.x + a.y * b.y + a.z * b.z

/-- Babylon `Vector3.Cross` (component formula from Babylon's source). -/
def cross (a b : Vec3) : Vec3 :=
  ⟨a.y * b.z - a.z * b.y, a.z * b.x - a.x * b.z, a.x * b.y - a.y * b.x⟩

/-- Babylon `Vector3.lengthSquared`. -/
def lengthSquared (a : Vec3) : ℚ := a.x * a.x + a.y * a.y + a.z * a.z

/-- Babylon `Vector3.Up()`. -/
def up : Vec3 := ⟨0, 1, 0⟩

/-- Babylon `Vector3.Zero()`. -/
def zero : Vec3 := ⟨0, 0, 0⟩

end Vec3

/-- `RoofType` from `src/types/roof` (re-exported in `src/unnamed/part_000`):
`"flat" | "dualPitch"`. -/
inductive RoofType where
  | flat
  | dualPitch
deriving DecidableEq, Repr

/-- The nested `position` record of a `MarkerTransform` (`src/types/marker.ts`). -/
structure Position where
  x : ℚ
  y : ℚ
  z : ℚ
deriving DecidableEq, Repr

/-- `MarkerTransform` from `src/types/marker.ts`. -/
structure MarkerTransform where
  id : String
  roofType : RoofType
  position : Position
  rotationY : ℚ
  scaleX : ℚ
  scaleY : ℚ
  widthMeters : ℚ
  heightMeters : ℚ
  isResizing : Bool
  isSelected : Bool
deriving DecidableEq, Repr

/-- The JavaScript object spread `{ ...old, ...new }` for two values of the
closed record type `MarkerTransform`: every key of `new` is present, so each
field of the result comes from `new`. Written out field by field to mirror the
spread's key-by-key override semantics. -/
def spreadOldNew (_old mnew : MarkerTransform) : MarkerTransform :=
  { id := mnew.id
    roofType := mnew.roofType
    position := mnew.position
    rotationY := mnew.rotationY
    scaleX := mnew.scaleX
    scaleY := mnew.scaleY
    widthMeters := mnew.widthMeters
    heightMeters := mnew.heightMeters
    isResizing := mnew.isResizing
    isSelected := mnew.isSelected }

/-- The JavaScript object spread `{ ...new, ...old }` (the `updateMarker` of
`src/unnamed/part_000` spreads the existing entry last): every key of `old` is
present, so each field of the result comes from `old`. -/
def spreadNewOld (_mnew old : MarkerTransform) : MarkerTransform :=
  { id := old.id
    roofType := old.roofType
    position := old.position
    rotationY := old.rotationY
    scaleX := old.scaleX
    scaleY := old.scaleY
    widthMeters := old.widthMeters
    heightMeters := old.heightMeters
    isResizing := old.isResizing
    isSelected := old.isSelected }

/-! ## The marker store of `src/unnamed/part_001`

The module-level `markers: MarkerTransform[]` array is passed explicitly; each
exported mutator becomes a function `List MarkerTransform → … → List
MarkerTransform`.  JavaScript `findIndex`'s `-1` sentinel is embedded as
`List.findIdx?` returning `none`. -/

namespace MarkerSync

/-- `updateMarker` (`src/unnamed/part_001` lines 39–47):
`findIndex((m) => m.id === marker.id)`; on hit
`markers[index] = { ...markers[index], ...marker }`, else `push`. -/
def updateMarker (markers : List MarkerTransform) (marker : MarkerTransform) :
    List MarkerTransform :=
  match h : markers.findIdx? (fun m => m.id == marker.id) with
  | some index =>
      markers.set index
        (spreadOldNew (markers.get ⟨index, (List.findIdx?_eq_some_iff_findIdx_eq.mp h).1⟩) marker)
  | none => markers ++ [marker]

/-- `setMarkerTransform` (`src/unnamed/part_001` lines 55–63):
`findIndex((m) => m.id === update.id)`; on hit `markers[idx] = update`, else
`push`. -/
def setMarkerTransform (markers : List MarkerTransform) (update : MarkerTransform) :
    List MarkerTransform :=
  match markers.findIdx? (fun m => m.id == update.id) with
  | some idx => markers.set idx update
  | none => markers ++ [update]

/-- `removeMarker` (`src/unnamed/part_001`): `markers.filter((m) => m.id !== id)`. -/
def removeMarker (markers : List MarkerTransform) (id : String) :
    List MarkerTransform :=
  markers.filter (fun marker => marker.id != id)

/-- `clearMarkers` (`src/unnamed/part_001`): `markers = []`. -/
def clearMarkers : List MarkerTransform := []

/-- `selectMarker` (`src/unnamed/part_001` lines 96–101):
`markers.forEach((m) => { m.isSelected = m.id === id })` where `id` may be
`null` (`none`), in which case `m.id === null` is false for every entry. -/
def selectMarker (markers : List MarkerTransform) (id : Option String) :
    List MarkerTransform :=
  markers.map (fun marker =>
    { marker with isSelected := match id with
        | some i => marker.id == i
        | none => false })

end MarkerSync

/-! ## The superseded marker store of `src/unnamed/part_000` -/

namespace MarkerSync0

/-- `updateMarker` (`src/unnamed/part_000` lines 45–53).  The `findIndex`
callback parameter is named `marker`, shadowing the function argument, so the
predicate `marker.id === marker.id` compares each element with itself; the
merge `{ ...marker, ...markers[index] }` spreads the existing entry last. -/
def updateMarker (markers : List MarkerTransform) (marker : MarkerTransform) :
    List MarkerTransform :=
  match h : markers.findIdx? (fun m => m.id == m.id) with
  | some index =>
      markers.set index
        (spreadNewOld marker (markers.get ⟨index, (List.findIdx?_eq_some_iff_findIdx_eq.mp h).1⟩))
  | none => markers ++ [marker]

end MarkerSync0

/-! ## Store operation sequences (claim C1) -/

/-- One invocation of a store mutator of `src/unnamed/part_001`
(upsert via `setMarkerTransform`, `removeMarker`, `clearMarkers`,
`selectMarker`). -/
inductive StoreOp where
  | set (t : MarkerTransform)
  | remove (id : String)
  | clear
  | select (id : Option String)

/-- Apply one store operation to the module-level `markers` array. -/
def applyOp (markers : List MarkerTransform) : StoreOp → List MarkerTransform
  | .set t => MarkerSync.setMarkerTransform markers t
  | .remove id => MarkerSync.removeMarker markers id
  | .clear => MarkerSync.clearMarkers
  | .select id => MarkerSync.selectMarker markers id

/-- Apply a sequence of store operations, oldest first. -/
def applyOps (markers : List MarkerTransform) (ops : List StoreOp) :
    List MarkerTransform :=
  ops.foldl applyOp markers

/-- Number of stored entries with `isSelected = true`. -/
def countSelected (markers : List MarkerTransform) : ℕ :=
  (markers.filter (fun m => m.isSelected)).length

/-! ## Ground-plane projection -/

/-- A Babylon picking ray: origin and direction. -/
structure Ray where
  origin : Vec3
  direction : Vec3
deriving DecidableEq, Repr

/-- Modelled from the spec: Babylon.js `Ray.intersectsPlane` is library code
outside this repository (`ResizeBehaviour.getPointerOnGround` calls it against
the plane through the world origin with normal up).  Per §4.2 the projector
"Returns none if the ray is parallel to the plane or the intersection lies
behind the ray origin"; otherwise it returns the distance `t ≥ 0` along the
ray with `origin + t·direction` on the plane. -/
def intersectsPlane (ray : Ray) (planePoint normal : Vec3) : Option ℚ :=
  let denom := ray.direction.dot normal
  if denom = 0 then none
  else
    let t := ((planePoint.sub ray.origin).dot normal) / denom
    if t < 0 then none else some t

/-- `ResizeBehaviour.getPointerOnGround` (`src/behaviours/ResizeBehaviour.ts`
lines 77–95): intersect the picking ray with the plane `Y = 0` (position
`Vector3.Zero()`, normal `(0,1,0)`) and return `origin + direction·dist`, or
`null` when there is no intersection. -/
def getPointerOnGround (ray : Ray) : Option Vec3 :=
  match intersectsPlane ray Vec3.zero Vec3.up with
  | none => none
  | some dist => some (ray.origin.add (ray.direction.scale dist))

/-- `RotationBehaviour.getMousePositionOnGroundPlane`
(`src/behaviours/RotationBehaviour.ts` lines 144–164): the plane height is the
mesh's own `position.y`; returns `null` when `|ray.direction.y| < 0.0001` or
when the solved parameter `t` is negative, else `origin + direction·t`. -/
def getMousePositionOnGroundPlane (groundY : ℚ) (ray : Ray) : Option Vec3 :=
  if |ray.direction.y| < 1 / 10000 then none
  else
    let t := (groundY - ray.origin.y) / ray.direction.y
    if t < 0 then none
    else some (ray.origin.add (ray.direction.scale t))

/-! ## The marker mesh and its handle geometry

`PlanCanvas.CreateRoofMarker` builds the marker as a 10×10 plane with
`rotation.x = π/2` (lying flat) and lets gestures write `rotation.y`,
`position` and `scaling`.  `ResizeBehaviour` reads the orientation only
through `marker.getDirection(Vector3.Right()).normalize()`, the unit world
direction of the marker's local X axis; the mesh state below stores exactly
that unit vector (`orientX`) in place of the rotation angle.  For the marker's
Babylon rotation `(x = π/2, y = θ, z = 0)` (yaw-pitch-roll order) one has
`orientX = (cos θ, 0, −sin θ)`, and theorems assume only that `orientX` is a
horizontal unit vector. -/
structure MarkerMesh where
  position : Vec3
  /-- `getDirection(Vector3.Right()).normalize()`: unit world direction of the
  marker's local X axis. -/
  orientX : Vec3
  scaling : Vec3
deriving DecidableEq, Repr

/-- Local positions of the four corner handles
(`PlanCanvas.createHandlesForMarker`): the marker plane is 10×10, so
`halfW = halfH = 5` and `zOffset = 0.2`; index order
top-left, top-right, bottom-left, bottom-right. -/
def cornerLocal : Fin 4 → Vec3
  | 0 => ⟨-5, 5, 1/5⟩
  | 1 => ⟨5, 5, 1/5⟩
  | 2 => ⟨-5, -5, 1/5⟩
  | 3 => ⟨5, -5, 1/5⟩

/-- Local positions of the four edge handles
(`PlanCanvas.createHandlesForMarker`): top, right, bottom, left. -/
def edgeLocal : Fin 4 → Vec3
  | 0 => ⟨0, 5, 1/5⟩
  | 1 => ⟨5, 0, 1/5⟩
  | 2 => ⟨0, -5, 1/5⟩
  | 3 => ⟨-5, 0, 1/5⟩

/-- `handle.getAbsolutePosition()` for a child of the marker at local
position `l`: the marker's world matrix applies scaling, then the rotation
`Ry(θ) · Rx(π/2)` (Babylon yaw-pitch-roll, row-vector convention), then the
translation.  `Rx(π/2)` sends scaled local `(sx·lx, sy·ly, sz·lz)` to
`(sx·lx, −sz·lz, sy·ly)`, and `Ry(θ)` maps `(1,0,0)` to `orientX` and
`(0,0,1)` to `−cross(up, orientX)`, so
`world = position + sx·lx·orientX − sy·ly·cross(up, orientX) − sz·lz·(0,1,0)`. -/
def worldOfLocal (m : MarkerMesh) (l : Vec3) : Vec3 :=
  ((m.position.add ((m.orientX).scale (m.scaling.x * l.x))).sub
      ((Vec3.cross Vec3.up m.orientX).scale (m.scaling.y * l.y))).sub
    (Vec3.up.scale (m.scaling.z * l.z))

/-- World position of corner handle `idx` (its `getAbsolutePosition()`). -/
def cornerWorld (m : MarkerMesh) (idx : Fin 4) : Vec3 :=
  worldOfLocal m (cornerLocal idx)

/-- World position of edge handle `idx` (its `getAbsolutePosition()`). -/
def edgeWorld (m : MarkerMesh) (idx : Fin 4) : Vec3 :=
  worldOfLocal m (edgeLocal idx)

/-! ## ResizeBehaviour -/

/-- `oppositeCornerMap = [3, 2, 1, 0]` (`ResizeBehaviour.attachCornerResize`). -/
def oppositeCornerMap : Fin 4 → Fin 4
  | 0 => 3
  | 1 => 2
  | 2 => 1
  | 3 => 0

/-- The mutable closure state of `attachCornerResize` together with the
`isResizing` field of the behaviour. -/
structure CornerState where
  isResizing : Bool
  activeCornerIndex : Option (Fin 4)
  fixedCornerWorld : Option Vec3
  initialMarkerCenter : Option Vec3
deriving DecidableEq, Repr

/-- The mutable closure state of `attachEdgeResize` together with the
`isResizingEdge` field of the behaviour.  `activeEdge` keeps the grabbed
handle's index (the code only tests it for `null`). -/
structure EdgeState where
  isResizingEdge : Bool
  activeEdge : Option (Fin 4)
  resizeAxis : Option Vec3
  isWidthResize : Bool
  fixedEdgeCenter : Option Vec3
  initialScaleX : ℚ
  initialScaleY : ℚ
  initialCenterY : ℚ
deriving DecidableEq, Repr

/-- The `isDisabled` gate of `MovementBehaviour` (`disable()`/`enable()`). -/
structure MovementState where
  isDisabled : Bool
deriving DecidableEq, Repr

/-- The local axes computed at the top of both resize handlers
(`ResizeBehaviour.ts` lines 161–167 and 232–238):
`axisX = marker.getDirection(Right).normalize()` and
`axisZ = Cross(Up, axisX)`, replaced by `(0,0,1)` when its squared length is
below `1e-6`, else normalized.  `axisX` is the stored unit direction
`orientX`; `cross(up, axisX)` of a horizontal unit vector is already a unit
vector, so its normalization is the identity (theorems assume `orientX` is a
horizontal unit vector, which holds for every mesh the scene creates). -/
def markerAxisX (m : MarkerMesh) : Vec3 := m.orientX

def markerAxisZ (m : MarkerMesh) : Vec3 :=
  let axisZ := Vec3.cross Vec3.up (markerAxisX m)
  if axisZ.lengthSquared < 1 / 1000000 then ⟨0, 0, 1⟩ else axisZ

/-- `attachCornerResize`, `POINTERDOWN` case (`ResizeBehaviour.ts` lines
111–133).  `cornerHit` is the index of the picked corner handle in
`cornerHandles` (`none` when the pick missed, hit no mesh, or hit a mesh that
is not one of this marker's corner handles).  `selectMarkerFn(markerId)` runs
before the guard; `isSelectedAfter` is the value the injected `isSelected()`
callback then returns. -/
def cornerDown (rs : CornerState) (mov : MovementState) (m : MarkerMesh)
    (cornerHit : Option (Fin 4)) (isSelectedAfter : Bool) :
    CornerState × MovementState :=
  match cornerHit with
  | none => (rs, mov)
  | some idx =>
      if !isSelectedAfter then (rs, mov)
      else
        let oppositeIdx := oppositeCornerMap idx
        ({ isResizing := true
           activeCornerIndex := some idx
           fixedCornerWorld := some (cornerWorld m oppositeIdx)
           initialMarkerCenter := some m.position },
         { isDisabled := true })

/-- `attachCornerResize`, `POINTERMOVE` case (`ResizeBehaviour.ts` lines
147–192): guard on the gesture state, project the pointer, decompose the
anchor-to-pointer vector on the marker's local axes, clamp each full extent at
`MIN_SIZE = 0.5`, write the new scaling and recenter the marker at
`anchor + sign·half-extent` along each axis, keeping the initial height. -/
def cornerMove (rs : CornerState) (m : MarkerMesh) (ray : Ray) : MarkerMesh :=
  match rs.isResizing, rs.activeCornerIndex, rs.fixedCornerWorld,
      rs.initialMarkerCenter with
  | true, some _, some fixedCornerWorld, some initialMarkerCenter =>
      (match getPointerOnGround ray with
       | none => m
       | some hitPoint =>
          let deltaWorld := hitPoint.sub fixedCornerWorld
          let axisX := markerAxisX m
          let axisZ := markerAxisZ m
          let projX := deltaWorld.dot axisX
          let projZ := deltaWorld.dot axisZ
          let signX : ℚ := if projX ≥ 0 then 1 else -1
          let signZ : ℚ := if projZ ≥ 0 then 1 else -1
          let fullWidthWorld := max |projX| (1/2)
          let fullHeightWorld := max |projZ| (1/2)
          let halfWidthWorld := fullWidthWorld / 2
          let halfHeightWorld := fullHeightWorld / 2
          let centerWorld :=
            (fixedCornerWorld.add (axisX.scale (signX * halfWidthWorld))).add
              (axisZ.scale (signZ * halfHeightWorld))
          { m with
            scaling := ⟨fullWidthWorld / 10, fullHeightWorld / 10, m.scaling.z⟩
            position := ⟨centerWorld.x, initialMarkerCenter.y, centerWorld.z⟩ })
  | _, _, _, _ => m

/-- `attachEdgeResize`, `POINTERDOWN` case (`ResizeBehaviour.ts` lines
215–270): pick the active axis by comparing the handle's center-relative
offset on each local axis, record the opposite edge's world position as the
fixed anchor and the current scaling as the per-gesture baseline. -/
def edgeDown (es : EdgeState) (mov : MovementState) (m : MarkerMesh)
    (edgeHit : Option (Fin 4)) (isSelectedAfter : Bool) :
    EdgeState × MovementState :=
  match edgeHit with
  | none => (es, mov)
  | some idx =>
      if !isSelectedAfter then (es, mov)
      else
        let axisX := markerAxisX m
        let axisZ := markerAxisZ m
        let center := m.position
        let handlePos := edgeWorld m idx
        let v := handlePos.sub center
        let dotX := v.dot axisX
        let dotZ := v.dot axisZ
        let es' :=
          if |dotX| ≥ |dotZ| then
            let signSide : ℚ := if dotX ≥ 0 then 1 else -1
            let half := |dotX|
            { es with
              isResizingEdge := true
              activeEdge := some idx
              isWidthResize := true
              resizeAxis := some axisX
              fixedEdgeCenter := some (center.sub (axisX.scale (signSide * half))) }
          else
            let signSide : ℚ := if dotZ ≥ 0 then 1 else -1
            let half := |dotZ|
            { es with
              isResizingEdge := true
              activeEdge := some idx
              isWidthResize := false
              resizeAxis := some axisZ
              fixedEdgeCenter := some (center.sub (axisZ.scale (signSide * half))) }
        ({ es' with
           initialScaleX := m.scaling.x
           initialScaleY := m.scaling.y
           initialCenterY := m.position.y },
         { isDisabled := true })

/-- `attachEdgeResize`, `POINTERMOVE` case (`ResizeBehaviour.ts` lines
284–326): displacement of the projected pointer from the fixed edge along the
active axis, halved for the symmetric half-extent and floored at
`MIN_HALF = 0.25`; only the active axis's scale changes, the other axis keeps
its pointer-down baseline, and the center moves to
`anchor + sign·half-extent·axis`. -/
def edgeMove (es : EdgeState) (m : MarkerMesh) (ray : Ray) : MarkerMesh :=
  match es.isResizingEdge, es.activeEdge, es.resizeAxis, es.fixedEdgeCenter with
  | true, some _, some resizeAxis, some fixedEdgeCenter =>
      (match getPointerOnGround ray with
       | none => m
       | some hitPoint =>
          let diff := hitPoint.sub fixedEdgeCenter
          let t := diff.dot resizeAxis
          let sign : ℚ := if t ≥ 0 then 1 else -1
          let absT := |t|
          let newHalf0 := absT / 2
          let newHalf := if newHalf0 < 1/4 then 1/4 else newHalf0
          let fullWorld := newHalf * 2
          let scaling :=
            if es.isWidthResize then
              (⟨fullWorld / 10, es.initialScaleY, m.scaling.z⟩ : Vec3)
            else
              (⟨es.initialScaleX, fullWorld / 10, m.scaling.z⟩ : Vec3)
          let centerWorld := fixedEdgeCenter.add (resizeAxis.scale (sign * newHalf))
          { m with
            scaling := scaling
            position := ⟨centerWorld.x, es.initialCenterY, centerWorld.z⟩ })
  | _, _, _, _ => m

/-! ## RotationBehaviour -/

/-- The mesh state `RotationBehaviour` reads and writes: `position` and
`rotation.y`. -/
structure RotMesh where
  position : Vec3
  rotationY : ℚ
deriving DecidableEq, Repr

/-- The drag state of `RotationBehaviour`: the `dragging` flag and the
pointer-down baselines. -/
structure RotationState where
  dragging : Bool
  startRotationY : ℚ
  startAngle : ℚ
  initialMeshPosition : Vec3
deriving DecidableEq, Repr

/-- `RotationBehaviour.computeAngleFromPoint`
(`src/behaviours/RotationBehaviour.ts` lines 170–174):
`atan2(v.z, v.x)` of `v = worldPoint − mesh.position`.  `Math.atan2` is a
JavaScript built-in, so the embedding is parametrized by the angle function
`atan2 : (z x : ℚ) → ℚ`; every theorem below holds for an arbitrary such
function. -/
def computeAngleFromPoint (atanTwo : ℚ → ℚ → ℚ) (mesh : RotMesh)
    (worldPoint : Vec3) : ℚ :=
  let v := worldPoint.sub mesh.position
  atanTwo v.z v.x

/-- `RotationBehaviour.attach`, `POINTERMOVE` case
(`src/behaviours/RotationBehaviour.ts` lines 104–117): ignore the event
unless dragging and the ground projection exists; otherwise set
`rotation.y = startRotationY − (currentAngle − startAngle)` and re-apply the
initial position. -/
def rotationMove (atanTwo : ℚ → ℚ → ℚ) (st : RotationState) (mesh : RotMesh)
    (ray : Ray) : RotMesh :=
  if !st.dragging then mesh
  else
    match getMousePositionOnGroundPlane mesh.position.y ray with
    | none => mesh
    | some groundPoint =>
        let currentAngle := computeAngleFromPoint atanTwo mesh groundPoint
        let delta := currentAngle - st.startAngle
        { mesh with
          rotationY := st.startRotationY - delta
          position := st.initialMeshPosition }

/-! ## ModelCanvas: derived-geometry consumer -/

/-- The transform of the derived house root node that
`updateHouseTransform` writes. -/
structure ModelNode where
  position : Vec3
  scaling : Vec3
  rotationY : ℚ
deriving DecidableEq, Repr

/-- `HouseState` of `src/canvases/ModelCanvas.tsx` (with the root node's
written transform inlined): `lastPos` and `positionLocked` bookkeeping. -/
structure HouseState where
  root : ModelNode
  lastPos : Option (ℚ × ℚ)
  positionLocked : Bool
deriving DecidableEq, Repr

/-- `updateHouseTransform` (`src/canvases/ModelCanvas.tsx` lines 227–267):
always write `rotation.y` and the scaling (`x := scaleX`, `z := scaleY`,
`y := 1`); while `isResizing` engage the position lock and leave the position
alone; when not resizing apply the position only if `moved` (either
horizontal component differs from `lastPos` by more than `EPS = 1e-3`, or
`lastPos` is `null`), releasing the lock at the same moment; finally record
`lastPos`. -/
def updateHouseTransform (house : HouseState) (t : MarkerTransform) : HouseState :=
  let EPS : ℚ := 1/1000
  let lastPos := house.lastPos
  let root0 := { house.root with rotationY := t.rotationY }
  let moved : Bool :=
    match lastPos with
    | none => true
    | some lp => decide (|t.position.x - lp.1| > EPS) ||
        decide (|t.position.z - lp.2| > EPS)
  let house' :=
    if t.isResizing then
      { house with
        positionLocked := true
        root := { root0 with scaling := ⟨t.scaleX, 1, t.scaleY⟩ } }
    else
      let root1 := { root0 with scaling := (⟨t.scaleX, 1, t.scaleY⟩ : Vec3) }
      if house.positionLocked then
        if moved then
          { house with
            positionLocked := false
            root := { root1 with position := ⟨t.position.x, 0, t.position.z⟩ } }
        else { house with root := root1 }
      else
        if moved then
          { house with
            root := { root1 with position := ⟨t.position.x, 0, t.position.z⟩ } }
        else { house with root := root1 }
  { house' with lastPos := some (t.position.x, t.position.z) }

/-! ## Store broadcast snapshots with object identity (claim C3)

JavaScript objects are mutable references; `notify` copies each marker with a
shallow spread `{ ...marker }`, which copies the `position` *reference*, not
the position record.  To make mutation of a delivered snapshot observable the
marker objects and their position records live on explicit heaps; an object is
an address into its heap. -/

/-- A marker object as allocated: all scalar fields by value, the nested
`position` held by reference into the position heap. -/
structure MarkerObj where
  id : String
  roofType : RoofType
  posRef : ℕ
  rotationY : ℚ
  scaleX : ℚ
  scaleY : ℚ
  widthMeters : ℚ
  heightMeters : ℚ
  isResizing : Bool
  isSelected : Bool
deriving DecidableEq, Repr

/-- The mutable object heaps plus the store's module-level `markers` array
(a list of marker-object addresses). -/
structure Heap where
  positions : List Position
  markerObjs : List MarkerObj
  /-- the `markers: MarkerTransform[]` array: addresses into `markerObjs` -/
  store : List ℕ
deriving DecidableEq, Repr

/-- Read a marker object. -/
def Heap.readMarker (h : Heap) (addr : ℕ) : Option MarkerObj :=
  h.markerObjs.get? addr

/-- Read the `position` record of the marker object at `addr` by following its
`posRef`. -/
def Heap.readPosition (h : Heap) (addr : ℕ) : Option Position :=
  match h.markerObjs.get? addr with
  | none => none
  | some m => h.positions.get? m.posRef

/-- The shallow spread `{ ...marker }` of `notify` and `subscribeMarkers`
(`src/unnamed/part_001` lines 12–15 and 24–31): allocate a fresh marker
object whose fields — including the `position` reference — are copied from
the original.  Returns the heap and the new object's address. -/
def Heap.shallowCopy (h : Heap) (addr : ℕ) : Heap × Option ℕ :=
  match h.markerObjs.get? addr with
  | none => (h, none)
  | some m => ({ h with markerObjs := h.markerObjs ++ [m] }, some h.markerObjs.length)

/-- The snapshot a listener receives: a fresh shallow copy of every stored
marker object, in store order (`markers.map((marker) => ({ ...marker }))`). -/
def Heap.snapshot (h : Heap) : Heap × List ℕ :=
  h.store.foldl
    (fun (acc : Heap × List ℕ) addr =>
      match acc.1.shallowCopy addr with
      | (h', some a) => (h', acc.2 ++ [a])
      | (h', none) => (h', acc.2))
    (h, [])

/-- A listener mutating field `position.x` of a snapshot marker object:
`snapshotMarker.position.x = v` writes through the shared `posRef`. -/
def Heap.setPosX (h : Heap) (addr : ℕ) (v : ℚ) : Heap :=
  match h.markerObjs.get? addr with
  | none => h
  | some m =>
      match h.positions.get? m.posRef with
      | none => h
      | some p =>
          { h with positions := h.positions.set m.posRef { p with x := v } }

/-- A listener mutating the top-level field `rotationY` of a snapshot marker
object: `snapshotMarker.rotationY = v` writes the copy only. -/
def Heap.setRotationY (h : Heap) (addr : ℕ) (v : ℚ) : Heap :=
  match h.markerObjs.get? addr with
  | none => h
  | some m =>
      { h with markerObjs := h.markerObjs.set addr { m with rotationY := v } }

/-! ## Derived sign tables and auxiliary definitions -/

/-- Sign of the width-axis local offset of corner handle `idx`
(from the `cornerPositions` table of `PlanCanvas.createHandlesForMarker`). -/
def cornerSignX : Fin 4 → ℚ
  | 0 => -1
  | 1 => 1
  | 2 => -1
  | 3 => 1

/-- Sign of the height-axis local offset of corner handle `idx`. -/
def cornerSignY : Fin 4 → ℚ
  | 0 => 1
  | 1 => 1
  | 2 => -1
  | 3 => -1

/-- The ids of the stored markers, in order. -/
def idsOf (markers : List MarkerTransform) : List String :=
  markers.map (fun m => m.id)

/-! ## Concrete sample values (used by witnesses and counterexamples) -/

/-- A marker transform with id `"a"`, unselected. -/
def markerA : MarkerTransform :=
  ⟨"a", .flat, ⟨0, 0, 0⟩, 0, 1, 1, 10, 10, false, false⟩

/-- A marker transform with id `"a"`, selected. -/
def markerAsel : MarkerTransform := { markerA with isSelected := true }

/-- A marker transform with id `"b"`, selected. -/
def markerBsel : MarkerTransform :=
  ⟨"b", .flat, ⟨1, 0, 1⟩, 0, 1, 1, 10, 10, false, true⟩

/-- A second transform with id `"a"` in which every field differs from
`markerA`. -/
def markerA2 : MarkerTransform :=
  ⟨"a", .dualPitch, ⟨7, 8, 9⟩, 5, 2, 3, 20, 30, true, true⟩

/-- A freshly created marker mesh at the origin: unit scaling, no rotation
(`orientX = (1,0,0)`). -/
def meshA : MarkerMesh := ⟨⟨0, 0, 0⟩, ⟨1, 0, 0⟩, ⟨1, 1, 1⟩⟩

/-- Initial corner-resize state (no gesture in progress). -/
def cornerIdle : CornerState := ⟨false, none, none, none⟩

/-- Initial edge-resize state (no gesture in progress). -/
def edgeIdle : EdgeState := ⟨false, none, none, true, none, 1, 1, 0⟩

/-- Initial movement state (enabled). -/
def movementIdle : MovementState := ⟨false⟩

/-- A vertical ray whose ground hit `(3, 0, 2)` stays on the active-corner
side of the anchor for a gesture on corner 1 of `meshA`. -/
def rayInside : Ray := ⟨⟨3, 10, 2⟩, ⟨0, -1, 0⟩⟩

/-- A vertical ray whose ground hit `(-7, 0, -6)` lies past the anchor
`(-5, ·, -5)` of a corner-1 gesture on `meshA`, on the far side along both
local axes. -/
def rayCrossed : Ray := ⟨⟨-7, 10, -6⟩, ⟨0, -1, 0⟩⟩

/-- A ray parallel to the ground plane. -/
def rayParallel : Ray := ⟨⟨0, 1, 0⟩, ⟨1, 0, 0⟩⟩

/-- A downward ray starting below the ground plane: the plane intersection
lies behind the ray origin. -/
def rayBehind : Ray := ⟨⟨0, -1, 0⟩, ⟨0, -1, 0⟩⟩

/-- An active edge-resize gesture state along the world X axis, baseline
scales `(1, 1)`. -/
def edgeActive : EdgeState :=
  ⟨true, some 1, some ⟨1, 0, 0⟩, true, some ⟨-5, 0, 0⟩, 1, 1, 0⟩

/-- An active corner-resize gesture state for corner 1 of `meshA`. -/
def cornerActive : CornerState :=
  ⟨true, some 1, some ⟨-5, -1/5, -5⟩, some ⟨0, 0, 0⟩⟩

/-- An active rotation-drag state with baseline rotation 1 and baseline
angle 0. -/
def rotActive : RotationState := ⟨true, 1, 0, ⟨0, 0, 0⟩⟩

/-- The rotated mesh as `RotationBehaviour` sees it. -/
def rotMeshA : RotMesh := ⟨⟨0, 0, 0⟩, 1⟩

/-- A constant stand-in for `Math.atan2` (witnesses only; theorems hold for
every angle function). -/
def atanTwoZero : ℚ → ℚ → ℚ := fun _ _ => 0

/-- An unlocked house with a recorded last position. -/
def houseA : HouseState := ⟨⟨⟨0, 0, 0⟩, ⟨1, 1, 1⟩, 0⟩, some (0, 0), false⟩

/-- A locked house with a recorded last position. -/
def houseLocked : HouseState := ⟨⟨⟨0, 0, 0⟩, ⟨1, 1, 1⟩, 0⟩, some (0, 0), true⟩

/-- A mid-resize snapshot of marker `"a"` at position `(4, 0, 4)`. -/
def tResizing : MarkerTransform :=
  ⟨"a", .flat, ⟨4, 0, 4⟩, 0, 2, 3, 20, 30, true, true⟩

/-- A post-resize snapshot of marker `"a"` at position `(4, 0, 4)`. -/
def tSettled : MarkerTransform := { tResizing with isResizing := false }

/-- The initial heap for the snapshot-aliasing run: one position record
`(1, 2, 3)` and one stored marker object referencing it. -/
def heap0 : Heap :=
  { positions := [⟨1, 2, 3⟩]
    markerObjs := [⟨"a", .flat, 0, 0, 1, 1, 10, 10, false, true⟩]
    store := [0] }

/-! # Theorems

## Corner-resize geometry lemmas -/

/-- For a horizontal unit `orientX` the cross product with up is already a
unit vector, so the degenerate branch of `markerAxisZ` is not taken. -/
theorem markerAxisZ_of_unit (m : MarkerMesh)
    (hu : m.orientX.x ^ 2 + m.orientX.z ^ 2 = 1) :
    markerAxisZ m = ⟨m.orientX.z, 0, -m.orientX.x⟩ := by
  unfold markerAxisZ markerAxisX
  have hc : Vec3.cross Vec3.up m.orientX = ⟨m.orientX.z, 0, -m.orientX.x⟩ := by
    simp [Vec3.cross, Vec3.up]
  rw [hc]
  rw [if_neg]
  have hls : (Vec3.lengthSquared ⟨m.orientX.z, 0, -m.orientX.x⟩) = 1 := by
    simp [Vec3.lengthSquared]
    nlinarith [hu]
  rw [hls]
  norm_num

/-- A corner-resize move touches only `position` and the ground scaling: the
orientation and the vertical scale component survive. -/
theorem cornerMove_keeps (rs : CornerState) (mm : MarkerMesh) (ray : Ray) :
    (cornerMove rs mm ray).orientX = mm.orientX ∧
    (cornerMove rs mm ray).scaling.z = mm.scaling.z := by
  unfold cornerMove
  split
  · split
    · exact ⟨rfl, rfl⟩
    · exact ⟨rfl, rfl⟩
  · exact ⟨rfl, rfl⟩

/-- A move whose pointer has no ground intersection is ignored. -/
theorem cornerMove_none (rs : CornerState) (mm : MarkerMesh) (ray : Ray)
    (hnone : getPointerOnGround ray = none) : cornerMove rs mm ray = mm := by
  unfold cornerMove
  split
  · rw [hnone]
  · rfl

/-- One valid corner-resize move whose axis projections carry the signs of the
gesture start places the opposite corner handle exactly at the recorded
anchor's ground position (and at the height determined by the initial center). -/
theorem cornerMove_pins (mm : MarkerMesh) (idx : Fin 4) (anchor initC : Vec3)
    (ray : Ray) (p : Vec3)
    (hy : mm.orientX.y = 0)
    (hu : mm.orientX.x ^ 2 + mm.orientX.z ^ 2 = 1)
    (hp : getPointerOnGround ray = some p)
    (hsx : (p.sub anchor).dot (markerAxisX mm) ≥ 0 ↔ cornerSignX idx = 1)
    (hsz : (p.sub anchor).dot (markerAxisZ mm) ≥ 0 ↔ cornerSignY idx = -1) :
    cornerWorld
      (cornerMove
        { isResizing := true, activeCornerIndex := some idx,
          fixedCornerWorld := some anchor, initialMarkerCenter := some initC }
        mm ray)
      (oppositeCornerMap idx)
      = ⟨anchor.x, initC.y - mm.scaling.z * (1/5), anchor.z⟩ := by
  have hz := markerAxisZ_of_unit mm hu
  have hcross : Vec3.cross Vec3.up mm.orientX = ⟨mm.orientX.z, 0, -mm.orientX.x⟩ := by
    simp [Vec3.cross, Vec3.up]
  have hcross2 : Vec3.cross ⟨0,1,0⟩ mm.orientX = ⟨mm.orientX.z, 0, -mm.orientX.x⟩ := by
    simp [Vec3.cross]
  rw [hz] at hsz
  fin_cases idx
  · -- corner index 0: local signs (-1, 1)
    have hx : ¬((p.sub anchor).dot (markerAxisX mm) ≥ 0) :=
      fun hh => absurd (hsx.mp hh) (by decide)
    simp only [markerAxisX] at hx
    have hzz : ¬((p.sub anchor).dot (⟨mm.orientX.z, 0, -mm.orientX.x⟩ : Vec3) ≥ 0) :=
      fun hh => absurd (hsz.mp hh) (by decide)
    simp only [cornerMove, hp, hz, markerAxisX]
    rw [if_neg hx, if_neg hzz]
    simp only [cornerWorld, oppositeCornerMap, cornerLocal, worldOfLocal, hcross, hcross2,
      Vec3.add, Vec3.sub, Vec3.scale, Vec3.dot, Vec3.up, Vec3.mk.injEq, markerAxisX]
    refine ⟨?_, ?_, ?_⟩
    all_goals simp only [hy]
    all_goals try ring
  · -- corner index 1: local signs (1, 1)
    have hx : (p.sub anchor).dot (markerAxisX mm) ≥ 0 := hsx.mpr (by decide)
    simp only [markerAxisX] at hx
    have hzz : ¬((p.sub anchor).dot (⟨mm.orientX.z, 0, -mm.orientX.x⟩ : Vec3) ≥ 0) :=
      fun hh => absurd (hsz.mp hh) (by decide)
    simp only [cornerMove, hp, hz, markerAxisX]
    rw [if_pos hx, if_neg hzz]
    simp only [cornerWorld, oppositeCornerMap, cornerLocal, worldOfLocal, hcross, hcross2,
      Vec3.add, Vec3.sub, Vec3.scale, Vec3.dot, Vec3.up, Vec3.mk.injEq, markerAxisX]
    refine ⟨?_, ?_, ?_⟩
    all_goals simp only [hy]
    all_goals try ring
  · -- corner index 2: local signs (-1, -1)
    have hx : ¬((p.sub anchor).dot (markerAxisX mm) ≥ 0) :=
      fun hh => absurd (hsx.mp hh) (by decide)
    simp only [markerAxisX] at hx
    have hzz : ((p.sub anchor).dot (⟨mm.orientX.z, 0, -mm.orientX.x⟩ : Vec3) ≥ 0) :=
      hsz.mpr (by decide)
    simp only [cornerMove, hp, hz, markerAxisX]
    rw [if_neg hx, if_pos hzz]
    simp only [cornerWorld, oppositeCornerMap, cornerLocal, worldOfLocal, hcross, hcross2,
      Vec3.add, Vec3.sub, Vec3.scale, Vec3.dot, Vec3.up, Vec3.mk.injEq, markerAxisX]
    refine ⟨?_, ?_, ?_⟩
    all_goals simp only [hy]
    all_goals try ring
  · -- corner index 3: local signs (1, -1)
    have hx : (p.sub anchor).dot (markerAxisX mm) ≥ 0 := hsx.mpr (by decide)
    simp only [markerAxisX] at hx
    have hzz : ((p.sub anchor).dot (⟨mm.orientX.z, 0, -mm.orientX.x⟩ : Vec3) ≥ 0) :=
      hsz.mpr (by decide)
    simp only [cornerMove, hp, hz, markerAxisX]
    rw [if_pos hx, if_pos hzz]
    simp only [cornerWorld, oppositeCornerMap, cornerLocal, worldOfLocal, hcross, hcross2,
      Vec3.add, Vec3.sub, Vec3.scale, Vec3.dot, Vec3.up, Vec3.mk.injEq, markerAxisX]
    refine ⟨?_, ?_, ?_⟩
    all_goals simp only [hy]
    all_goals try ring

/-- The height of every corner handle over the marker center is
`-scaling.z / 5` for a flat marker. -/
theorem cornerWorld_y (m : MarkerMesh) (i : Fin 4) (hy : m.orientX.y = 0) :
    (cornerWorld m i).y = m.position.y - m.scaling.z * (1/5) := by
  fin_cases i
  all_goals simp [cornerWorld, cornerLocal, worldOfLocal, Vec3.add, Vec3.sub, Vec3.scale,
    Vec3.cross, Vec3.up, hy]

/-- C2 (counterexample). The claim as stated is false: starting a corner-1
gesture on `meshA` (anchor = opposite corner 2 at ground `(-5,-5)`) and moving
the pointer to the valid ground hit `(-7, 0, -6)` — on the far side of the
anchor — displaces the opposite corner handle by 2 units along x, far beyond
the 1e-4 tolerance, even though every move of the gesture had a valid
ground-plane intersection. -/
theorem corner_anchor_moves_on_crossing :
    getPointerOnGround rayCrossed = some ⟨-7, 0, -6⟩ ∧
    ¬(|(cornerWorld
          ([rayCrossed].foldl
            (fun mm ray =>
              cornerMove (cornerDown cornerIdle movementIdle meshA (some 1) true).1 mm ray)
            meshA)
          (oppositeCornerMap 1)).x
        - (cornerWorld meshA (oppositeCornerMap 1)).x| ≤ 1/10000) := by
  constructor
  · norm_num [getPointerOnGround, intersectsPlane, rayCrossed, Vec3.dot, Vec3.up,
      Vec3.zero, Vec3.sub, Vec3.add, Vec3.scale]
  · norm_num [cornerWorld, oppositeCornerMap, cornerLocal, worldOfLocal, meshA,
      cornerMove, cornerDown, cornerIdle, movementIdle, rayCrossed,
      getPointerOnGround, intersectsPlane, markerAxisX, markerAxisZ,
      Vec3.add, Vec3.sub, Vec3.scale, Vec3.cross, Vec3.dot, Vec3.up, Vec3.zero,
      Vec3.lengthSquared, Vec3.mk.injEq]

/-- C2 (amended). Corner-resize anchoring: for every corner-resize
pointer-down on corner `idx` of a marker whose `orientX` is a horizontal unit
vector, and every sequence of pointer-move events whose valid ground
intersections keep the anchor-to-pointer projections on the marker's local
axes at the same signs they have at gesture start (pointer on the
active-corner side of the anchor along both local axes — this excludes the
crossing moves of the counterexample), the world position of the opposite
(un-dragged) corner after the whole gesture equals the anchor recorded at
pointer-down exactly (in particular within 1e-4), including moves that reach
the minimum-size clamp. -/
theorem corner_resize_anchoring (m0 : MarkerMesh) (idx : Fin 4) (rays : List Ray)
    (rs0 : CornerState) (mov0 : MovementState)
    (hy : m0.orientX.y = 0)
    (hu : m0.orientX.x ^ 2 + m0.orientX.z ^ 2 = 1)
    (hsigns : ∀ ray ∈ rays, ∀ p, getPointerOnGround ray = some p →
      (((p.sub (cornerWorld m0 (oppositeCornerMap idx))).dot (markerAxisX m0) ≥ 0 ↔
          cornerSignX idx = 1) ∧
       ((p.sub (cornerWorld m0 (oppositeCornerMap idx))).dot (markerAxisZ m0) ≥ 0 ↔
          cornerSignY idx = -1))) :
    cornerWorld
      (rays.foldl
        (fun mm ray => cornerMove (cornerDown rs0 mov0 m0 (some idx) true).1 mm ray) m0)
      (oppositeCornerMap idx)
      = cornerWorld m0 (oppositeCornerMap idx) := by
  set opp := oppositeCornerMap idx with hopp
  set anchor := cornerWorld m0 opp with hanchor
  have hdown : (cornerDown rs0 mov0 m0 (some idx) true).1 =
      { isResizing := true, activeCornerIndex := some idx,
        fixedCornerWorld := some anchor, initialMarkerCenter := some m0.position } := rfl
  have main : ∀ (rl : List Ray), (∀ r ∈ rl, ∀ p, getPointerOnGround r = some p →
      (((p.sub anchor).dot (markerAxisX m0) ≥ 0 ↔ cornerSignX idx = 1) ∧
       ((p.sub anchor).dot (markerAxisZ m0) ≥ 0 ↔ cornerSignY idx = -1))) →
      ∀ mm : MarkerMesh, mm.orientX = m0.orientX → mm.scaling.z = m0.scaling.z →
      cornerWorld mm opp = anchor →
      (let res := rl.foldl
          (fun a r => cornerMove (cornerDown rs0 mov0 m0 (some idx) true).1 a r) mm
       res.orientX = m0.orientX ∧ res.scaling.z = m0.scaling.z ∧
         cornerWorld res opp = anchor) := by
    intro rl
    induction rl with
    | nil => intro _ mm h1 h2 h3; exact ⟨h1, h2, h3⟩
    | cons r rl ih =>
        intro hs mm h1 h2 h3
        have hs_head := hs r (List.mem_cons_self r rl)
        have hs_tail : ∀ x ∈ rl, ∀ p, getPointerOnGround x = some p →
            (((p.sub anchor).dot (markerAxisX m0) ≥ 0 ↔ cornerSignX idx = 1) ∧
             ((p.sub anchor).dot (markerAxisZ m0) ≥ 0 ↔ cornerSignY idx = -1)) :=
          fun x hx => hs x (List.mem_cons_of_mem r hx)
        simp only [List.foldl_cons]
        set mm' := cornerMove (cornerDown rs0 mov0 m0 (some idx) true).1 mm r with hmm'
        have hkeep := cornerMove_keeps (cornerDown rs0 mov0 m0 (some idx) true).1 mm r
        have h1' : mm'.orientX = m0.orientX := by rw [hmm', hkeep.1, h1]
        have h2' : mm'.scaling.z = m0.scaling.z := by rw [hmm', hkeep.2, h2]
        have h3' : cornerWorld mm' opp = anchor := by
          cases hpg : getPointerOnGround r with
          | none => rw [hmm', cornerMove_none _ _ _ hpg]; exact h3
          | some p =>
              have hax : markerAxisX mm = markerAxisX m0 := by
                simp [markerAxisX, h1]
              have haz : markerAxisZ mm = markerAxisZ m0 := by
                simp [markerAxisZ, markerAxisX, h1]
              have hsp := hs_head p hpg
              have hpin := cornerMove_pins mm idx anchor m0.position r p
                (by rw [h1]; exact hy) (by rw [h1]; exact hu) hpg
                (by rw [hax]; exact hsp.1) (by rw [haz]; exact hsp.2)
              rw [hmm', hdown, hpin]
              have hay : anchor.y = m0.position.y - m0.scaling.z * (1/5) := by
                rw [hanchor]; exact cornerWorld_y m0 opp hy
              rw [h2, ← hay]
        exact ih hs_tail mm' h1' h2' h3'
  exact (main rays hsigns m0 rfl rfl rfl).2.2

/-- C2 (witness): the amended anchoring theorem applied to a concrete
corner-1 gesture on `meshA` with one valid move to ground point `(3, 0, 2)`. -/
theorem corner_resize_anchoring_witness :
    cornerWorld
      ([rayInside].foldl
        (fun mm ray =>
          cornerMove (cornerDown cornerIdle movementIdle meshA (some 1) true).1 mm ray)
        meshA)
      (oppositeCornerMap 1)
      = cornerWorld meshA (oppositeCornerMap 1) := by
  apply corner_resize_anchoring meshA 1 [rayInside] cornerIdle movementIdle
  · norm_num [meshA]
  · norm_num [meshA]
  · intro ray hray p hp
    have hray' : ray = rayInside := by
      simpa using hray
    subst hray'
    have hpg : getPointerOnGround rayInside = some ⟨3, 0, 2⟩ := by
      norm_num [getPointerOnGround, intersectsPlane, rayInside, Vec3.dot, Vec3.up,
        Vec3.zero, Vec3.sub, Vec3.add, Vec3.scale]
    rw [hpg] at hp
    cases hp
    constructor
    · norm_num [cornerWorld, oppositeCornerMap, cornerLocal, worldOfLocal, meshA,
        markerAxisX, cornerSignX, Vec3.sub, Vec3.dot, Vec3.add, Vec3.scale,
        Vec3.cross, Vec3.up]
    · norm_num [cornerWorld, oppositeCornerMap, cornerLocal, worldOfLocal, meshA,
        markerAxisZ, markerAxisX, cornerSignY, Vec3.sub, Vec3.dot, Vec3.add,
        Vec3.scale, Vec3.cross, Vec3.up, Vec3.lengthSquared]

/-! ## Store upsert semantics -/

/-- C4. Upsert full replacement: both update paths of `src/unnamed/part_001`
agree — `updateMarker`'s merge of a complete `MarkerTransform` over the old
entry leaves no field of the old entry alive, so it coincides with
`setMarkerTransform` — and the common behaviour replaces the (first) entry
whose id matches the argument entirely with the argument, or appends the
argument when no entry matches. -/
theorem upsert_full_replacement (l : List MarkerTransform) (t : MarkerTransform) :
    MarkerSync.updateMarker l t = MarkerSync.setMarkerTransform l t ∧
    (∀ i, l.findIdx? (fun m => m.id == t.id) = some i →
      MarkerSync.setMarkerTransform l t = l.set i t) ∧
    (l.findIdx? (fun m => m.id == t.id) = none →
      MarkerSync.setMarkerTransform l t = l ++ [t]) := by
  refine ⟨?_, ?_, ?_⟩
  · unfold MarkerSync.updateMarker MarkerSync.setMarkerTransform
    split
    · rename_i i h
      show l.set i t = _
      rw [h]
    · rename_i h
      rw [h]
  · intro i h
    unfold MarkerSync.setMarkerTransform
    rw [h]
  · intro h
    unfold MarkerSync.setMarkerTransform
    rw [h]

/-- C4 (witness): replacing the entry of id `"a"` by a transform sharing no
other field with it. -/
theorem upsert_full_replacement_witness :
    MarkerSync.updateMarker [markerA] markerA2 =
      MarkerSync.setMarkerTransform [markerA] markerA2 ∧
    MarkerSync.setMarkerTransform [markerA] markerA2 = [markerA].set 0 markerA2 :=
  ⟨(upsert_full_replacement [markerA] markerA2).1,
   (upsert_full_replacement [markerA] markerA2).2.1 0 (by
      simp [List.findIdx?_cons, markerA, markerA2])⟩

/-- C10. In the store variant of `src/unnamed/part_000`, `updateMarker` on a
non-empty list is a no-op on the stored entries (the shadowed `findIndex`
predicate always selects index 0 and the old-entry-last spread preserves every
field of it); a marker is appended only when the list is empty. -/
theorem shadowed_update_noop (l : List MarkerTransform) (t : MarkerTransform) :
    (l ≠ [] → MarkerSync0.updateMarker l t = l) ∧
    (l = [] → MarkerSync0.updateMarker l t = [t]) := by
  cases l with
  | nil => exact ⟨fun h => absurd rfl h, fun _ => rfl⟩
  | cons a l =>
      refine ⟨fun _ => ?_, fun h => by cases h⟩
      unfold MarkerSync0.updateMarker
      have hfi : (a :: l).findIdx? (fun m => m.id == m.id) = some 0 := by
        simp [List.findIdx?_cons]
      split
      · rename_i i heq
        rw [hfi] at heq
        cases heq
        rfl
      · rename_i heq
        rw [hfi] at heq
        cases heq

/-- C10 (witness): calling the buggy `updateMarker` with a transform of a
different id leaves the one-element list unchanged; on the empty list the
transform is appended. -/
theorem shadowed_update_noop_witness :
    MarkerSync0.updateMarker [markerA] markerBsel = [markerA] ∧
    MarkerSync0.updateMarker [] markerA = [markerA] :=
  ⟨(shadowed_update_noop [markerA] markerBsel).1 (by simp),
   (shadowed_update_noop [] markerA).2 rfl⟩

/-! ## Gesture refusal and rotation -/

/-- C8. Refused resize gesture atomicity: a pointer-down on a corner or edge
handle for which the injected `isSelected()` check reports that selection did
not take effect returns the corner/edge controller state and the movement
gate exactly as they were — no flag is raised, no anchor or axis baseline is
recorded, and the Movement Controller is not disabled. -/
theorem refused_resize_atomicity (rs : CornerState) (es : EdgeState)
    (mov mov2 : MovementState) (m : MarkerMesh) (cidx eidx : Fin 4) :
    cornerDown rs mov m (some cidx) false = (rs, mov) ∧
    edgeDown es mov2 m (some eidx) false = (es, mov2) :=
  ⟨rfl, rfl⟩

/-- C6. Rotation sign convention: every pointer-move with a valid ground
intersection during a rotation drag sets `rotationY` to
`startRotationY − (currentAngle − startAngle)` with both angles computed by
`atan2` of the projected point relative to the marker center; hence when the
handle's ground angle has advanced by `θ` over the baseline, `rotationY` has
decreased by exactly `θ`.  The statement holds for every angle function
standing in for the `Math.atan2` built-in. -/
theorem rotation_sign_convention (atanTwo : ℚ → ℚ → ℚ) (st : RotationState)
    (mesh : RotMesh) (ray : Ray) (p : Vec3)
    (hd : st.dragging = true)
    (hp : getMousePositionOnGroundPlane mesh.position.y ray = some p) :
    (rotationMove atanTwo st mesh ray).rotationY
      = st.startRotationY - (computeAngleFromPoint atanTwo mesh p - st.startAngle) ∧
    ∀ θ : ℚ, computeAngleFromPoint atanTwo mesh p = st.startAngle + θ →
      (rotationMove atanTwo st mesh ray).rotationY = st.startRotationY - θ := by
  have h1 : rotationMove atanTwo st mesh ray =
      { mesh with
        rotationY :=
          st.startRotationY - (computeAngleFromPoint atanTwo mesh p - st.startAngle)
        position := st.initialMeshPosition } := by
    unfold rotationMove
    rw [hd, hp]
    norm_num
  constructor
  · rw [h1]
  · intro θ hθ
    rw [h1]
    simp only [hθ]
    ring_nf

/-- C6 (witness): the rotation formula applied to a concrete drag with the
constant angle function and the valid ground hit `(3, 0, 2)`. -/
theorem rotation_sign_convention_witness :
    (rotationMove atanTwoZero rotActive rotMeshA rayInside).rotationY
      = rotActive.startRotationY
        - (computeAngleFromPoint atanTwoZero rotMeshA ⟨3, 0, 2⟩ - rotActive.startAngle) :=
  (rotation_sign_convention atanTwoZero rotActive rotMeshA rayInside ⟨3, 0, 2⟩ rfl
    (by norm_num [getMousePositionOnGroundPlane, rayInside, rotMeshA,
      Vec3.add, Vec3.scale])).1

/-! ## Ground-plane projection failure handling -/

/-- An edge-resize move whose pointer has no ground intersection is ignored. -/
theorem edgeMove_none (es : EdgeState) (mm : MarkerMesh) (ray : Ray)
    (hnone : getPointerOnGround ray = none) : edgeMove es mm ray = mm := by
  unfold edgeMove
  split
  · rw [hnone]
  · rfl

/-- A rotation move whose pointer has no ground intersection is ignored. -/
theorem rotationMove_none (atanTwo : ℚ → ℚ → ℚ) (st : RotationState)
    (mesh : RotMesh) (ray : Ray)
    (hnone : getMousePositionOnGroundPlane mesh.position.y ray = none) :
    rotationMove atanTwo st mesh ray = mesh := by
  unfold rotationMove
  split
  · rfl
  · rw [hnone]

/-- C7. Ground-plane projection failure handling: both projectors return
`none` when the pointer ray is parallel to the ground plane (`direction.y = 0`)
or when the solved intersection parameter is negative (the intersection lies
behind the ray origin); and a move event whose projection is `none` is ignored
by the corner-resize, edge-resize and rotation handlers — the marker transform
is returned unchanged (the handlers do not touch the controller state at all). -/
theorem ground_projection_failure_handling (groundY : ℚ) (ray : Ray)
    (rs : CornerState) (es : EdgeState) (st : RotationState)
    (atanTwo : ℚ → ℚ → ℚ) (mm : MarkerMesh) (mesh : RotMesh) :
    (ray.direction.y = 0 →
       getMousePositionOnGroundPlane groundY ray = none ∧
       getPointerOnGround ray = none) ∧
    ((groundY - ray.origin.y) / ray.direction.y < 0 →
       getMousePositionOnGroundPlane groundY ray = none) ∧
    ((0 - ray.origin.y) / ray.direction.y < 0 → getPointerOnGround ray = none) ∧
    (getPointerOnGround ray = none →
       cornerMove rs mm ray = mm ∧ edgeMove es mm ray = mm) ∧
    (getMousePositionOnGroundPlane mesh.position.y ray = none →
       rotationMove atanTwo st mesh ray = mesh) := by
  have hup : ray.direction.dot Vec3.up = ray.direction.y := by
    simp [Vec3.dot, Vec3.up]
  have hnum : (Vec3.zero.sub ray.origin).dot Vec3.up = 0 - ray.origin.y := by
    simp [Vec3.dot, Vec3.up, Vec3.zero, Vec3.sub]
  refine ⟨?_, ?_, ?_, ?_, ?_⟩
  · intro h0
    constructor
    · unfold getMousePositionOnGroundPlane
      rw [if_pos]
      rw [h0]
      norm_num
    · have hip : intersectsPlane ray Vec3.zero Vec3.up = none := by
        unfold intersectsPlane
        rw [hup, h0]
        norm_num
      unfold getPointerOnGround
      rw [hip]
  · intro ht
    unfold getMousePositionOnGroundPlane
    split
    · rfl
    · rw [if_pos ht]
  · intro ht
    have hip : intersectsPlane ray Vec3.zero Vec3.up = none := by
      unfold intersectsPlane
      rw [hup, hnum]
      by_cases hd : ray.direction.y = 0
      · simp [hd]
      · simp only [hd, if_false, if_neg]
        simpa using ht
    unfold getPointerOnGround
    rw [hip]
  · intro hnone
    exact ⟨cornerMove_none rs mm ray hnone, edgeMove_none es mm ray hnone⟩
  · intro hnone
    exact rotationMove_none atanTwo st mesh ray hnone

/-- C7 (witness): a ray parallel to the ground plane projects to `none` in
both projectors, and the corresponding move events leave the marker and the
rotated mesh unchanged. -/
theorem ground_projection_failure_handling_witness :
    getPointerOnGround rayParallel = none ∧
    cornerMove cornerActive meshA rayParallel = meshA ∧
    rotationMove atanTwoZero rotActive rotMeshA rayParallel = rotMeshA := by
  have h := ground_projection_failure_handling 0 rayParallel cornerActive edgeActive
    rotActive atanTwoZero meshA rotMeshA
  have hpar : rayParallel.direction.y = 0 := rfl
  have hboth := h.1 hpar
  refine ⟨hboth.2, (h.2.2.2.1 hboth.2).1, ?_⟩
  have h' := ground_projection_failure_handling rotMeshA.position.y rayParallel
    cornerActive edgeActive rotActive atanTwoZero meshA rotMeshA
  exact h'.2.2.2.2 (h'.1 hpar).1

/-! ## Minimum size floor -/

/-- C5. Minimum size floor: on every valid corner-resize move the applied
full extent on each local axis (scaling times the 10-unit base size) equals
`max(|axis projection of the anchor-to-pointer vector|, 0.5)`, and on every
valid edge-resize move the applied half-extent on the active axis equals
`max(|displacement along the active axis| / 2, 0.25)` while the other axis
keeps its pointer-down baseline; consequently — dragging onto or past the
anchor included — the resulting `scaleX` and `scaleY` are strictly positive
(for the edge case, given positive pointer-down baselines). -/
theorem min_size_floor (idx eidx : Fin 4) (anchor initC axis fixedC : Vec3)
    (wR : Bool) (isx isy icy : ℚ) (mm : MarkerMesh) (ray : Ray) (p : Vec3)
    (hp : getPointerOnGround ray = some p) :
    ((cornerMove ⟨true, some idx, some anchor, some initC⟩ mm ray).scaling.x * 10
        = max |(p.sub anchor).dot (markerAxisX mm)| (1/2) ∧
      (cornerMove ⟨true, some idx, some anchor, some initC⟩ mm ray).scaling.y * 10
        = max |(p.sub anchor).dot (markerAxisZ mm)| (1/2) ∧
      0 < (cornerMove ⟨true, some idx, some anchor, some initC⟩ mm ray).scaling.x ∧
      0 < (cornerMove ⟨true, some idx, some anchor, some initC⟩ mm ray).scaling.y) ∧
    ((wR = true →
        (edgeMove ⟨true, some eidx, some axis, wR, some fixedC, isx, isy, icy⟩ mm ray).scaling.x
            * 10 / 2
          = max (|(p.sub fixedC).dot axis| / 2) (1/4) ∧
        (edgeMove ⟨true, some eidx, some axis, wR, some fixedC, isx, isy, icy⟩ mm ray).scaling.y
          = isy) ∧
      (wR = false →
        (edgeMove ⟨true, some eidx, some axis, wR, some fixedC, isx, isy, icy⟩ mm ray).scaling.y
            * 10 / 2
          = max (|(p.sub fixedC).dot axis| / 2) (1/4) ∧
        (edgeMove ⟨true, some eidx, some axis, wR, some fixedC, isx, isy, icy⟩ mm ray).scaling.x
          = isx) ∧
      (0 < isx → 0 < isy →
        0 < (edgeMove ⟨true, some eidx, some axis, wR, some fixedC, isx, isy, icy⟩ mm ray).scaling.x ∧
        0 < (edgeMove ⟨true, some eidx, some axis, wR, some fixedC, isx, isy, icy⟩ mm ray).scaling.y)) := by
  have hcm : cornerMove ⟨true, some idx, some anchor, some initC⟩ mm ray =
      { mm with
        scaling := ⟨max |(p.sub anchor).dot (markerAxisX mm)| (1/2) / 10,
                    max |(p.sub anchor).dot (markerAxisZ mm)| (1/2) / 10,
                    mm.scaling.z⟩
        position :=
          ⟨((anchor.add
              ((markerAxisX mm).scale
                ((if (p.sub anchor).dot (markerAxisX mm) ≥ 0 then 1 else -1) *
                  (max |(p.sub anchor).dot (markerAxisX mm)| (1/2) / 2)))).add
              ((markerAxisZ mm).scale
                ((if (p.sub anchor).dot (markerAxisZ mm) ≥ 0 then 1 else -1) *
                  (max |(p.sub anchor).dot (markerAxisZ mm)| (1/2) / 2)))).x,
           initC.y,
           ((anchor.add
              ((markerAxisX mm).scale
                ((if (p.sub anchor).dot (markerAxisX mm) ≥ 0 then 1 else -1) *
                  (max |(p.sub anchor).dot (markerAxisX mm)| (1/2) / 2)))).add
              ((markerAxisZ mm).scale
                ((if (p.sub anchor).dot (markerAxisZ mm) ≥ 0 then 1 else -1) *
                  (max |(p.sub anchor).dot (markerAxisZ mm)| (1/2) / 2)))).z⟩ } := by
    unfold cornerMove
    rw [hp]
  have hhalf : ∀ t : ℚ, (if |t| / 2 < 1/4 then (1/4 : ℚ) else |t| / 2)
      = max (|t| / 2) (1/4) := by
    intro t
    rcases lt_or_le (|t| / 2) (1/4) with h | h
    · rw [if_pos h, max_eq_right (le_of_lt h)]
    · rw [if_neg (not_lt.mpr h), max_eq_left h]
  have hem : edgeMove ⟨true, some eidx, some axis, wR, some fixedC, isx, isy, icy⟩ mm ray =
      { mm with
        scaling :=
          if wR then
            ⟨max (|(p.sub fixedC).dot axis| / 2) (1/4) * 2 / 10, isy, mm.scaling.z⟩
          else
            ⟨isx, max (|(p.sub fixedC).dot axis| / 2) (1/4) * 2 / 10, mm.scaling.z⟩
        position :=
          ⟨(fixedC.add (axis.scale
              ((if (p.sub fixedC).dot axis ≥ 0 then 1 else -1) *
                max (|(p.sub fixedC).dot axis| / 2) (1/4)))).x,
           icy,
           (fixedC.add (axis.scale
              ((if (p.sub fixedC).dot axis ≥ 0 then 1 else -1) *
                max (|(p.sub fixedC).dot axis| / 2) (1/4)))).z⟩ } := by
    unfold edgeMove
    simp only [hp]
    rw [hhalf ((p.sub fixedC).dot axis)]
  have hposc : ∀ a : ℚ, 0 < max a (1/2) / 10 := by
    intro a
    have : (1/2 : ℚ) ≤ max a (1/2) := le_max_right a (1/2)
    linarith
  have hpose : ∀ a : ℚ, 0 < max (a / 2) (1/4) * 2 / 10 := by
    intro a
    have : (1/4 : ℚ) ≤ max (a / 2) (1/4) := le_max_right (a / 2) (1/4)
    linarith
  constructor
  · rw [hcm]
    refine ⟨by ring, by ring, hposc _, hposc _⟩
  · refine ⟨?_, ?_, ?_⟩
    · intro hw
      rw [hem, hw]
      exact ⟨by norm_num, by norm_num⟩
    · intro hw
      rw [hem, hw]
      exact ⟨by norm_num, by norm_num⟩
    · intro hx hy
      rw [hem]
      cases wR
      · exact ⟨by norm_num [hx], by norm_num [hpose]⟩
      · exact ⟨by norm_num [hpose], by norm_num [hy]⟩

/-- C5 (witness): a concrete corner move (hit `(3,0,2)`, anchor
`(-5,-1/5,-5)`) and a concrete width-axis edge move (hit `(3,0,2)`, fixed edge
center `(-5,0,0)`), both yielding strictly positive scales. -/
theorem min_size_floor_witness :
    ((cornerMove ⟨true, some 1, some ⟨-5, -1/5, -5⟩, some ⟨0, 0, 0⟩⟩ meshA rayInside).scaling.x * 10
        = max |(((⟨3, 0, 2⟩ : Vec3)).sub ⟨-5, -1/5, -5⟩).dot (markerAxisX meshA)| (1/2) ∧
      0 < (cornerMove ⟨true, some 1, some ⟨-5, -1/5, -5⟩, some ⟨0, 0, 0⟩⟩ meshA rayInside).scaling.x) ∧
    ((edgeMove ⟨true, some 1, some ⟨1, 0, 0⟩, true, some ⟨-5, 0, 0⟩, 1, 1, 0⟩ meshA rayInside).scaling.x
        * 10 / 2
      = max (|(((⟨3, 0, 2⟩ : Vec3)).sub ⟨-5, 0, 0⟩).dot ⟨1, 0, 0⟩| / 2) (1/4)) := by
  have hpg : getPointerOnGround rayInside = some ⟨3, 0, 2⟩ := by
    norm_num [getPointerOnGround, intersectsPlane, rayInside, Vec3.dot, Vec3.up,
      Vec3.zero, Vec3.sub, Vec3.add, Vec3.scale]
  have h := min_size_floor 1 1 ⟨-5, -1/5, -5⟩ ⟨0, 0, 0⟩ ⟨1, 0, 0⟩ ⟨-5, 0, 0⟩
    true 1 1 0 meshA rayInside ⟨3, 0, 2⟩ hpg
  exact ⟨⟨h.1.1, h.1.2.2.1⟩, (h.2.1 rfl).1⟩

/-! ## Derived-geometry position lock -/

/-- C9. Resize position lock on the consumer side: a snapshot with
`isResizing = true` never updates the house root's horizontal position,
engages the lock, and still sets the scaling from the snapshot's
`scaleX`/`scaleY`; a snapshot with `isResizing = false` also always sets the
scaling, and for a locked house with a recorded last position the lock
releases — and the position is applied — exactly when one horizontal
component of the snapshot position differs from the recorded one by more than
the epsilon `1e-3`; otherwise the house stays locked and the position is left
alone. -/
theorem resize_position_lock (house : HouseState) (t : MarkerTransform)
    (lp : ℚ × ℚ) :
    (t.isResizing = true →
       (updateHouseTransform house t).root.position = house.root.position ∧
       (updateHouseTransform house t).positionLocked = true ∧
       (updateHouseTransform house t).root.scaling = ⟨t.scaleX, 1, t.scaleY⟩) ∧
    (t.isResizing = false →
       (updateHouseTransform house t).root.scaling = ⟨t.scaleX, 1, t.scaleY⟩ ∧
       (house.positionLocked = true → house.lastPos = some lp →
         ((|t.position.x - lp.1| > 1/1000 ∨ |t.position.z - lp.2| > 1/1000) →
            (updateHouseTransform house t).positionLocked = false ∧
            (updateHouseTransform house t).root.position
              = ⟨t.position.x, 0, t.position.z⟩) ∧
         (¬(|t.position.x - lp.1| > 1/1000 ∨ |t.position.z - lp.2| > 1/1000) →
            (updateHouseTransform house t).positionLocked = true ∧
            (updateHouseTransform house t).root.position
              = house.root.position))) := by
  constructor
  · intro hr
    unfold updateHouseTransform
    simp only [hr]
    exact ⟨rfl, rfl, rfl⟩
  · intro hr
    constructor
    · unfold updateHouseTransform
      simp only [hr]
      split_ifs <;> rfl
    · intro hl hlp
      constructor
      · intro hmv
        have hb : (decide (|t.position.x - lp.1| > 1/1000) ||
            decide (|t.position.z - lp.2| > 1/1000)) = true := by
          rcases hmv with h | h
          · rw [decide_eq_true h]
            rfl
          · rw [decide_eq_true h, Bool.or_true]
        unfold updateHouseTransform
        simp only [hr, hl, hlp, hb]
        exact ⟨rfl, rfl⟩
      · intro hmv
        have hb : (decide (|t.position.x - lp.1| > 1/1000) ||
            decide (|t.position.z - lp.2| > 1/1000)) = false := by
          rcases not_or.mp hmv with ⟨h1, h2⟩
          rw [decide_eq_false h1, decide_eq_false h2]
          rfl
        unfold updateHouseTransform
        simp only [hr, hl, hlp, hb]
        exact ⟨rfl, rfl⟩

/-- C9 (witness): a mid-resize snapshot leaves the locked house's position
alone while updating its scaling; the settled snapshot at an unmoved position
keeps the lock; the settled snapshot after a real move releases it. -/
theorem resize_position_lock_witness :
    ((updateHouseTransform houseLocked tResizing).root.position
        = houseLocked.root.position ∧
      (updateHouseTransform houseLocked tResizing).positionLocked = true ∧
      (updateHouseTransform houseLocked tResizing).root.scaling = ⟨2, 1, 3⟩) ∧
    ((updateHouseTransform houseLocked tSettled).positionLocked = false ∧
      (updateHouseTransform houseLocked tSettled).root.position = ⟨4, 0, 4⟩) := by
  constructor
  · exact (resize_position_lock houseLocked tResizing (0, 0)).1 rfl
  · refine (((resize_position_lock houseLocked tSettled (0, 0)).2 rfl).2 rfl rfl).1 ?_
    left
    norm_num [tSettled, tResizing]

/-! ## Store snapshot aliasing -/

/-- C3 (code evaluated at the failing input). `notify`'s snapshot is a
*shallow* copy, so the copied marker object shares its nested `position`
record with the stored one.  Starting from a store with one marker whose
position record is `(1, 2, 3)`: taking a snapshot allocates the copy at
address 1; a listener writing `999` to the copy's `position.x` changes the
position the *store's own* marker reads to `(999, 2, 3)` — the store's
internal marker list is mutated through the alias, contradicting `notify`'s
own doc comment ("a shallow copy to prevent external mutations") and the
spec's isolation contract.  Top-level fields are isolated: writing `42` to
the copy's `rotationY` leaves the stored marker's `rotationY` at `0`. -/
theorem snapshot_position_aliasing :
    heap0.readPosition 0 = some ⟨1, 2, 3⟩ ∧
    heap0.snapshot.2 = [1] ∧
    ((heap0.snapshot.1.setPosX 1 999).readPosition 0 = some ⟨999, 2, 3⟩) ∧
    (((heap0.snapshot.1.setRotationY 1 42).readMarker 0).map
        (fun m => m.rotationY) = some 0) :=
  ⟨rfl, rfl, rfl, rfl⟩

/-! ## Single-selection invariant -/

theorem countSelected_cons (a : MarkerTransform) (l : List MarkerTransform) :
    countSelected (a :: l) = (if a.isSelected then 1 else 0) + countSelected l := by
  by_cases h : a.isSelected <;>
    simp [countSelected, List.filter_cons, h, Nat.add_comm]

theorem countSelected_append (l1 l2 : List MarkerTransform) :
    countSelected (l1 ++ l2) = countSelected l1 + countSelected l2 := by
  simp [countSelected, List.filter_append]

theorem countSelected_set_le (l : List MarkerTransform) (i : ℕ)
    (t : MarkerTransform) (ht : t.isSelected = false) :
    countSelected (l.set i t) ≤ countSelected l := by
  induction l generalizing i with
  | nil => simp
  | cons a l ih =>
      cases i with
      | zero =>
          rw [List.set_cons_zero, countSelected_cons, countSelected_cons, ht]
          simp
      | succ j =>
          rw [List.set_cons_succ, countSelected_cons, countSelected_cons]
          exact Nat.add_le_add_left (ih j) _

theorem idsOf_cons (a : MarkerTransform) (l : List MarkerTransform) :
    idsOf (a :: l) = a.id :: idsOf l := rfl

theorem idsOf_set_of_get (l : List MarkerTransform) (i : ℕ) (t : MarkerTransform)
    (hi : i < l.length) (hid : (l.get ⟨i, hi⟩).id = t.id) :
    idsOf (l.set i t) = idsOf l := by
  induction l generalizing i with
  | nil => cases hi
  | cons a l ih =>
      cases i with
      | zero =>
          rw [List.set_cons_zero, idsOf_cons, idsOf_cons]
          simp only [List.get] at hid
          rw [← hid]
      | succ j =>
          rw [List.set_cons_succ, idsOf_cons, idsOf_cons]
          rw [ih j (Nat.lt_of_succ_lt_succ hi) hid]

theorem idsOf_append_one (l : List MarkerTransform) (t : MarkerTransform) :
    idsOf (l ++ [t]) = idsOf l ++ [t.id] := by
  simp [idsOf]

theorem idsOf_selectMarker (l : List MarkerTransform) (i : Option String) :
    idsOf (MarkerSync.selectMarker l i) = idsOf l := by
  simp [idsOf, MarkerSync.selectMarker, List.map_map, Function.comp]

theorem countSelected_filter_le (l : List MarkerTransform)
    (q : MarkerTransform → Bool) : countSelected (l.filter q) ≤ countSelected l :=
  List.Sublist.length_le (List.Sublist.filter _ (List.filter_sublist l))

theorem filter_id_len_le_one : ∀ (l : List MarkerTransform) (i : String),
    (idsOf l).Nodup → (l.filter (fun m => m.id == i)).length ≤ 1 := by
  intro l
  induction l with
  | nil => intro i _; simp
  | cons a l ih =>
      intro i hnd
      rw [idsOf_cons, List.nodup_cons] at hnd
      obtain ⟨hnotin, hnd'⟩ := hnd
      rw [List.filter_cons]
      by_cases h : (a.id == i) = true
      · rw [if_pos h]
        have hempty : l.filter (fun m => m.id == i) = [] := by
          rw [List.filter_eq_nil_iff]
          intro x hx
          have hne : x.id ≠ a.id := by
            intro hxa
            exact hnotin (hxa ▸ List.mem_map_of_mem (fun m => m.id) hx)
          have hai : a.id = i := by
            exact eq_of_beq h
          simp [hai ▸ hne]
        rw [hempty]
        simp
      · rw [if_neg h]
        exact ih i hnd'

theorem countSelected_selectMarker_some (l : List MarkerTransform) (i : String) :
    countSelected (MarkerSync.selectMarker l (some i))
      = (l.filter (fun m => m.id == i)).length := by
  induction l with
  | nil => rfl
  | cons a l ih =>
      unfold MarkerSync.selectMarker at *
      rw [List.map_cons, countSelected_cons, List.filter_cons]
      by_cases h : (a.id == i) = true
      · simp only [h, if_pos]
        rw [ih]
        simp [Nat.add_comm]
      · simp only [h]
        rw [ih]
        simp [h]

theorem countSelected_selectMarker_none (l : List MarkerTransform) :
    countSelected (MarkerSync.selectMarker l none) = 0 := by
  induction l with
  | nil => rfl
  | cons a l ih =>
      unfold MarkerSync.selectMarker at *
      rw [List.map_cons, countSelected_cons]
      simp [ih]

/-- The inductive invariant of the store: ids are pairwise distinct and at
most one entry is selected. -/
def StoreInv (l : List MarkerTransform) : Prop :=
  (idsOf l).Nodup ∧ countSelected l ≤ 1

theorem storeInv_set (l : List MarkerTransform) (t : MarkerTransform)
    (ht : t.isSelected = false) (h : StoreInv l) :
    StoreInv (MarkerSync.setMarkerTransform l t) := by
  obtain ⟨hnd, hc⟩ := h
  unfold MarkerSync.setMarkerTransform
  cases hf : l.findIdx? (fun m => m.id == t.id) with
  | some i =>
      obtain ⟨hi, hpi, _⟩ := List.findIdx?_eq_some_iff_getElem.mp hf
      constructor
      · rw [idsOf_set_of_get l i t hi (eq_of_beq hpi)]
        exact hnd
      · exact le_trans (countSelected_set_le l i t ht) hc
  | none =>
      have hall := List.findIdx?_eq_none_iff.mp hf
      constructor
      · rw [idsOf_append_one]
        refine List.Nodup.append hnd (List.nodup_singleton _) ?_
        intro x hx hx2
        rw [List.mem_singleton] at hx2
        subst hx2
        obtain ⟨m, hm, hmeq⟩ := List.mem_map.mp hx
        have hfalse := hall m hm
        rw [show (m.id == t.id) = true from beq_iff_eq.mpr hmeq] at hfalse
        cases hfalse
      · rw [countSelected_append]
        have h1 : countSelected [t] = 0 := by
          simp [countSelected, ht]
        omega

theorem storeInv_remove (l : List MarkerTransform) (id : String)
    (h : StoreInv l) : StoreInv (MarkerSync.removeMarker l id) := by
  obtain ⟨hnd, hc⟩ := h
  constructor
  · unfold idsOf MarkerSync.removeMarker
    exact List.Nodup.sublist
      (List.Sublist.map (fun m => m.id) (List.filter_sublist l)) hnd
  · exact le_trans (countSelected_filter_le l _) hc

theorem storeInv_select (l : List MarkerTransform) (i : Option String)
    (h : StoreInv l) : StoreInv (MarkerSync.selectMarker l i) := by
  obtain ⟨hnd, _⟩ := h
  constructor
  · rw [idsOf_selectMarker]
    exact hnd
  · cases i with
    | none =>
        rw [countSelected_selectMarker_none]
        omega
    | some i =>
        rw [countSelected_selectMarker_some]
        exact filter_id_len_le_one l i hnd

theorem storeInv_applyOps : ∀ (ops : List StoreOp) (l : List MarkerTransform),
    (∀ t, StoreOp.set t ∈ ops → t.isSelected = false) →
    StoreInv l → StoreInv (applyOps l ops) := by
  intro ops
  induction ops with
  | nil => intro l _ h; exact h
  | cons op ops ih =>
      intro l hset h
      rw [applyOps, List.foldl_cons]
      apply ih (applyOp l op) (fun t ht => hset t (List.mem_cons_of_mem op ht))
      cases op with
      | set t => exact storeInv_set l t (hset t (List.mem_cons_self _ _)) h
      | remove id => exact storeInv_remove l id h
      | clear =>
          exact ⟨List.nodup_nil, by
            simp [applyOp, MarkerSync.clearMarkers, countSelected]⟩
      | select i => exact storeInv_select l i h

/-- C1 (counterexample). The claim as stated is false: upserting two distinct
already-selected transforms (a path `setMarkerTransform` permits, since it
stores its argument verbatim) yields a store with two selected markers. -/
theorem upsert_breaks_single_selection :
    ¬(countSelected (applyOps [] [.set markerAsel, .set markerBsel]) ≤ 1) := by
  decide

/-- C1 (amended). Single-selection invariant: after any sequence of store
operations starting from the empty store in which every transform passed to
the upsert is unselected (`isSelected = false` — upserting a pre-selected
transform can break the invariant, see the counterexample), at most one
stored marker has `isSelected = true`; moreover `selectMarker id` sets
`isSelected` to true on exactly the entries whose id matches and false on
every other entry, and `selectMarker null` leaves no marker selected. -/
theorem single_selection_invariant (ops : List StoreOp)
    (l : List MarkerTransform) (i : String)
    (hset : ∀ t, StoreOp.set t ∈ ops → t.isSelected = false) :
    countSelected (applyOps [] ops) ≤ 1 ∧
    (∀ m ∈ MarkerSync.selectMarker l (some i), m.isSelected = (m.id == i)) ∧
    (∀ m ∈ MarkerSync.selectMarker l none, m.isSelected = false) := by
  refine ⟨?_, ?_, ?_⟩
  · exact (storeInv_applyOps ops [] hset
      ⟨List.nodup_nil, by simp [countSelected]⟩).2
  · intro m hm
    obtain ⟨a, _, rfl⟩ := List.mem_map.mp hm
    rfl
  · intro m hm
    obtain ⟨a, _, rfl⟩ := List.mem_map.mp hm
    rfl

/-- C1 (witness): upserting two unselected markers and selecting `"a"` keeps
at most one entry selected; the select conjuncts applied to a concrete
two-entry store. -/
theorem single_selection_invariant_witness :
    countSelected
      (applyOps [] [.set markerA, .set { markerBsel with isSelected := false },
        .select (some "a")]) ≤ 1 ∧
    (∀ m ∈ MarkerSync.selectMarker [markerA, markerBsel] (some "a"),
      m.isSelected = (m.id == "a")) ∧
    (∀ m ∈ MarkerSync.selectMarker [markerA, markerBsel] none,
      m.isSelected = false) := by
  apply single_selection_invariant
  intro t ht
  simp only [List.mem_cons, List.not_mem_nil, or_false] at ht
  rcases ht with h | h | h
  · cases h; rfl
  · cases h; rfl
  · cases h

end Rooftop
